import Mathlib

/-!
# Shallow embedding of the mini-game-socket matchmaking queue and match engine

This file embeds the queue manager (`src/queueManager.js`), the match manager
(`src/matchManager.js`, delivered as `src/unnamed/part_001`) and the parts of the
session manager (`src/gameManager.js`) that those two read and write, and proves
properties of the embedded operations.

Modelling conventions:
* JavaScript `Map`s (insertion ordered) are association lists `List (String × α)`;
  `Map.get` is `lookupA`, `Map.set` is `setA` (replace in place, else append),
  `Map.delete` is `eraseA`.
* JavaScript numbers that the code treats as integers (hp, damage, rounds,
  coordinates, timestamps) are `Int`.  `Math.floor (b * 1.5)` on an integer `b`
  is exact in floating point and equals `Int.fdiv (b * 3) 2`.
* WebSocket sends are recorded as `Out.send recipientStudentId message` events;
  every channel is modelled as open (a closed channel drops the message and has
  no effect on state, so the state component is unaffected by this choice).
* `setTimeout` calls are recorded as `Out.schedule` events; a timer firing is
  modelled by explicitly invoking the scheduled operation on a later state.  The
  `match.roundTimer` handle is modelled as the `Bool` field `roundTimer`
  (`true` = a live armed handle); `clearTimeout` sets it to `false` (the source
  sometimes leaves the cancelled handle in place, but nothing observes the
  difference between a cancelled handle and `null`).
* The SQL collaborator used by `endMatch` is modelled by a `Storage` parameter
  describing whether the awaited queries throw and what rows they return; on a
  throw the exception propagates out of `endMatch` (its callers do no further
  work afterwards), keeping exactly the mutations made before the first `await`.
* Session fields not read or written by the queue/match operations
  (`teacherWs`, `questions`, `status`, ...) are omitted, as are per-player
  fields the match engine never touches (`inLobby`, `cardsAnswered`, ...).
-/

/-- A 2-D position, `{x, y}` in the source. -/
structure Pos where
  x : Int
  y : Int
deriving DecidableEq, Repr

/-- The two sides of a match: the `'player1'` / `'player2'` string keys of the
source, made a closed type (the source only ever stores these two values in
`ws.playerId` and `spell.owner`). -/
inductive Side where
  | player1
  | player2
deriving DecidableEq, Repr

/-- The opposite side (`ws.playerId === 'player1' ? match.player2 : match.player1`). -/
def Side.other : Side → Side
  | .player1 => .player2
  | .player2 => .player1

/-- One side's embedded player record inside a match object (`matchManager.createMatch`). -/
structure MatchPlayer where
  id : String
  nickname : String
  character : Option String
  hp : Int
  damage : Int
  position : Pos
  ready : Bool
  correctAnswers : Int
  /-- `damageDealt` starts absent (`undefined`) in the source and is lazily
  initialised to `0` before every addition; an `Int` starting at `0` is
  equivalent. -/
  damageDealt : Int := 0
  damageReceived : Int := 0
deriving DecidableEq, Repr

/-- A live spell projectile (`matchManager.handleSpellCast`). -/
structure Spell where
  id : String
  spellType : String
  startPosition : Pos
  targetPosition : Pos
  direction : Int
  damage : Int
  speed : Int
  /-- `owner` (the source also duplicates it as `casterId`). -/
  owner : Side
  createdAt : Int
deriving DecidableEq, Repr

/-- `match.status`: `'waiting' | 'active' | 'completed'`. -/
inductive MatchStatus where
  | waiting
  | active
  | completed
deriving DecidableEq, Repr

/-- A match object stored in `activeMatches` (`matchManager.createMatch`). -/
structure GameMatch where
  id : String
  sessionCode : String
  player1 : MatchPlayer
  player2 : MatchPlayer
  currentRound : Int
  /-- Whether `match.roundTimer` holds a live (armed, uncancelled) timer handle. -/
  roundTimer : Bool
  status : MatchStatus
  activeSpells : List Spell
deriving DecidableEq, Repr

/-- Select a side's player record (`match[ws.playerId]`). -/
def GameMatch.getPlayer (m : GameMatch) : Side → MatchPlayer
  | .player1 => m.player1
  | .player2 => m.player2

/-- Replace a side's player record (mutation of `match.player1` / `match.player2`). -/
def GameMatch.setPlayer (m : GameMatch) : Side → MatchPlayer → GameMatch
  | .player1, p => { m with player1 := p }
  | .player2, p => { m with player2 := p }

/-- A per-session tournament player record (`gameManager.joinSession`), restricted
to the fields the queue and match managers read or write.  `eliminated` is absent
(`undefined`, falsy) until `endMatch` sets it. -/
structure SessionPlayer where
  studentId : String
  studentNickname : String
  selectedCharacter : Option String
  correctAnswers : Int
  damage : Int
  hp : Int
  inQueue : Bool
  eliminated : Bool := false
  matchId : Option String
  damageDealt : Int := 0
  damageReceived : Int := 0
deriving DecidableEq, Repr

/-- A session (`gameManager.activeSessions` entry), restricted to its `players` map. -/
structure Session where
  players : List (String × SessionPlayer)
deriving DecidableEq, Repr

/-- A matchmaking queue entry (`queueManager.enterQueue`); the `ws` channel is
identified by the `studentId` it belongs to. -/
structure QueueEntry where
  studentId : String
  sessionCode : String
  damage : Int
  hp : Int
  selectedCharacter : Option String
  studentNickname : String
  enteredAt : Int
deriving DecidableEq, Repr

/-- The combined mutable server state: `queues` (queueManager), `activeSessions`
(gameManager) and `activeMatches` (matchManager). -/
structure ServerState where
  queues : List (String × List QueueEntry)
  sessions : List (String × Session)
  activeMatches : List (String × GameMatch)
deriving DecidableEq, Repr

/-- `Map.prototype.get`. -/
def lookupA {α : Type} : List (String × α) → String → Option α
  | [], _ => none
  | (k, v) :: rest, key => if k = key then some v else lookupA rest key

/-- `Map.prototype.set`: replace the value in place if the key is present
(keeping insertion order), otherwise append. -/
def setA {α : Type} : List (String × α) → String → α → List (String × α)
  | [], key, val => [(key, val)]
  | (k, v) :: rest, key, val =>
      if k = key then (key, val) :: rest else (k, v) :: setA rest key val

/-- `Map.prototype.delete`. -/
def eraseA {α : Type} : List (String × α) → String → List (String × α)
  | [], _ => []
  | (k, v) :: rest, key => if k = key then rest else (k, v) :: eraseA rest key

/-- Results block of a `match-end` message, one per side. -/
structure PlayerResult where
  id : String
  nickname : String
  hp : Int
  place : Int
  correctAnswers : Int
  damageDealt : Int
  damageReceived : Int
deriving DecidableEq, Repr

/-- Winner block of a `tournament-end` message. -/
structure TournamentWinner where
  id : String
  nickname : String
  hp : Int
  correctAnswers : Int
  damageDealt : Int
  damageReceived : Int
deriving DecidableEq, Repr

/-- An outbound WebSocket message payload. -/
inductive Msg where
  | error (message : String)
  | queueJoined (position : Int)
  | queueLeft
  | matchFound (matchId opponentId : String) (opponentNickname : String)
      (opponentCharacter : Option String) (opponentDamage : Int) (isPlayer1 : Bool)
  | roundStart (round duration player1Hp player2Hp : Int)
  | roundEnd (round player1Hp player2Hp : Int)
  | opponentMove (position : Pos) (playerId : Side)
  | spellCast (spell : Spell)
  | spellHit (spellId : String) (target : Side)
      (damage remainingHp oldHp player1Hp player2Hp : Int)
  | matchEnd (winner : String) (resultsP1 resultsP2 : PlayerResult)
  | tournamentEnd (winner : TournamentWinner)
deriving DecidableEq, Repr

/-- Deferred work registered with `setTimeout`. -/
inductive Delayed where
  | tryMatchRetry (sessionCode : String)
  | endRoundAt (matchId : String)
  | startRoundAt (matchId : String)
deriving DecidableEq, Repr

/-- An observable output of one operation: a send on some student's channel, or
a `setTimeout` registration. -/
inductive Out where
  | send (toStudent : String) (m : Msg)
  | schedule (d : Delayed) (delayMs : Int)
deriving DecidableEq, Repr

/-- `matchManager.calculateSpellDamage`.  `Math.floor (baseDamage * 1.5)` on an
integer is `Int.fdiv (baseDamage * 3) 2`. -/
def calculateSpellDamage (spellType : String) (baseDamage : Int) : Int :=
  if spellType = "fire_arrow" then
    baseDamage
  else if spellType = "water_spell" then
    Int.fdiv (baseDamage * 3) 2
  else
    baseDamage

/-- `matchManager.validatePosition`: clamp into the mover's own half. -/
def validatePosition (position : Pos) (playerId : Side) : Pos :=
  let maxX : Int := if playerId = Side.player1 then 400 else 800
  let minX : Int := if playerId = Side.player1 then 0 else 400
  let maxY : Int := 600
  let minY : Int := 0
  { x := max minX (min maxX position.x), y := max minY (min maxY position.y) }

/-- JavaScript `a || b` on numbers (`0` is falsy); `jsOr none b` is `undefined || b`. -/
def jsOr (v : Option Int) (d : Int) : Int :=
  match v with
  | none => d
  | some x => if x = 0 then d else x

/-- `const p = session.players.get(id); if (p) { mutate p }` — update one player
record of one session in place, a no-op when session or player is missing. -/
def updateSessionPlayer (st : ServerState) (sessionCode studentId : String)
    (f : SessionPlayer → SessionPlayer) : ServerState :=
  match lookupA st.sessions sessionCode with
  | none => st
  | some s =>
    match lookupA s.players studentId with
    | none => st
    | some p =>
      { st with sessions := (setA st.sessions sessionCode
          { s with players := setA s.players studentId (f p) }) }

/-- `matchManager.createMatch`.  The generated id is a parameter (`newMatchId`,
`match_${Date.now()}_${random}` in the source).  The `ws.matchId` / `ws.playerId`
assignments are connection-routing metadata: here routing is by the explicit
`matchId` / `Side` parameters of the handlers. -/
def createMatch (newMatchId : String) (st : ServerState) (sessionCode : String)
    (player1 player2 : QueueEntry) : ServerState :=
  let p1Data := (lookupA st.sessions sessionCode).bind
    (fun s => lookupA s.players player1.studentId)
  let p2Data := (lookupA st.sessions sessionCode).bind
    (fun s => lookupA s.players player2.studentId)
  let m : GameMatch := {
    id := newMatchId
    sessionCode := sessionCode
    player1 := {
      id := player1.studentId
      nickname := player1.studentNickname
      character := player1.selectedCharacter
      hp := jsOr (p1Data.map (·.hp)) 200
      damage := jsOr (some player1.damage) 5
      position := ⟨100, 300⟩  -- Left side
      ready := false
      correctAnswers := jsOr (p1Data.map (·.correctAnswers)) 0 }
    player2 := {
      id := player2.studentId
      nickname := player2.studentNickname
      character := player2.selectedCharacter
      hp := jsOr (p2Data.map (·.hp)) 200
      damage := jsOr (some player2.damage) 5
      position := ⟨700, 300⟩  -- Right side
      ready := false
      correctAnswers := jsOr (p2Data.map (·.correctAnswers)) 0 }
    currentRound := 0
    roundTimer := false
    status := .waiting
    activeSpells := [] }
  { st with activeMatches := setA st.activeMatches newMatchId m }

/-- `queueManager.tryMatch`: pop the two oldest entries, clear their `inQueue`
flags, create the match, notify both players, and re-schedule itself when two
or more entries remain. -/
def tryMatch (newMatchId : String) (st : ServerState) (sessionCode : String) :
    ServerState × List Out :=
  match lookupA st.queues sessionCode with
  | none => (st, [])
  | some queue =>
    match queue with
    | player1 :: player2 :: rest =>
      let st1 := { st with queues := setA st.queues sessionCode rest }
      let st2 := updateSessionPlayer st1 sessionCode player1.studentId
        (fun p => { p with inQueue := false })
      let st3 := updateSessionPlayer st2 sessionCode player2.studentId
        (fun p => { p with inQueue := false })
      let st4 := createMatch newMatchId st3 sessionCode player1 player2
      let evs := [
        Out.send player1.studentId (.matchFound newMatchId player2.studentId
          player2.studentNickname player2.selectedCharacter player2.damage true),
        -- the source sends `isPlayer2: true` here; `isPlayer1 := false` encodes it
        Out.send player2.studentId (.matchFound newMatchId player1.studentId
          player1.studentNickname player1.selectedCharacter player1.damage false)]
      (st4, if rest.length ≥ 2 then
        evs ++ [Out.schedule (.tryMatchRetry sessionCode) 100]
      else
        evs)
    | _ => (st, [])  -- queue.length < 2

/-- `queueManager.enterQueue`.  `now` is `Date.now()` for the entry's
`enteredAt`; `newMatchId` is the id a triggered `tryMatch` would generate. -/
def enterQueue (now : Int) (newMatchId : String) (st : ServerState)
    (sessionCode studentId : String) : ServerState × List Out :=
  -- if (!queues.has(sessionCode)) queues.set(sessionCode, []);
  let st := if (lookupA st.queues sessionCode).isNone
            then { st with queues := setA st.queues sessionCode [] } else st
  let queue := (lookupA st.queues sessionCode).getD []
  if (queue.find? (fun p => p.studentId == studentId)).isSome then
    (st, [.send studentId (.error "Already in queue")])
  else
    match lookupA st.sessions sessionCode with
    | none => (st, [.send studentId (.error "Session not found")])
    | some session =>
      match lookupA session.players studentId with
      | none => (st, [.send studentId (.error "Player not found in session")])
      | some player =>
        if player.eliminated || player.hp ≤ 0 then
          (st, [.send studentId (.error "You have been eliminated from the tournament")])
        else
          -- player.matchId = null; player.inQueue = true;
          let st := updateSessionPlayer st sessionCode studentId
            (fun p => { p with matchId := none, inQueue := true })
          let queue := queue ++ [{
            studentId := studentId
            sessionCode := sessionCode
            damage := player.damage
            hp := player.hp
            selectedCharacter := player.selectedCharacter
            studentNickname := player.studentNickname
            enteredAt := now }]
          let st := { st with queues := setA st.queues sessionCode queue }
          let evs := [Out.send studentId (.queueJoined (queue.length : Int))]
          if queue.length ≥ 2 then
            let r := tryMatch newMatchId st sessionCode
            (r.1, evs ++ r.2)
          else
            (st, evs)

/-- `queueManager.removeFromQueue`: scan sessions in map order, remove the first
entry with this `studentId`, clear `inQueue`, notify; stop after the first hit. -/
def removeFromQueue (st : ServerState) (studentId : String) :
    ServerState × List Out :=
  match st.queues.find?
      (fun kv => (kv.2.find? (fun p => p.studentId == studentId)).isSome) with
  | none => (st, [])
  | some (sessionCode, queue) =>
    let st1 := { st with queues := (setA st.queues sessionCode
      (queue.eraseP (fun p => p.studentId == studentId))) }
    let st2 := updateSessionPlayer st1 sessionCode studentId
      (fun p => { p with inQueue := false })
    (st2, [.send studentId .queueLeft])

/-- `queueManager.getQueuePosition`: 1-based position or `null`. -/
def getQueuePosition (st : ServerState) (sessionCode studentId : String) :
    Option Int :=
  match lookupA st.queues sessionCode with
  | none => none
  | some queue =>
    match queue.findIdx? (fun p => p.studentId == studentId) with
    | none => none
    | some index => some ((index : Int) + 1)

/-- The row `SELECT id, game_id FROM mini_game_sessions ...` returns. -/
structure DbSessionRow where
  id : Int
  gameId : Int
deriving DecidableEq, Repr

/-- Behaviour of the SQL collaborator during one `endMatch` call. -/
inductive Storage where
  /-- An awaited query rejects: the exception propagates out of `endMatch`,
  keeping exactly the mutations made before the first `await`. -/
  | throws
  /-- Every query succeeds; `sessionRow` is the `mini_game_sessions` row for the
  match's session code (`none` = empty result set), and the flags say whether
  the winner's / loser's `users` rows exist. -/
  | ok (sessionRow : Option DbSessionRow) (winnerUserFound loserUserFound : Bool)
deriving DecidableEq, Repr

/-- `matchManager.endMatch`. -/
def endMatch (storage : Storage) (st : ServerState) (matchId winnerId : String) :
    ServerState × List Out :=
  match lookupA st.activeMatches matchId with
  | none => (st, [])
  | some m =>
    -- match.status = 'completed'; if (match.roundTimer) clearTimeout(match.roundTimer);
    let m1 : GameMatch := { m with status := .completed, roundTimer := false }
    let st1 := { st with activeMatches := setA st.activeMatches matchId m1 }
    let winnerSide : Side := if winnerId = m1.player1.id then .player1 else .player2
    let winner := m1.getPlayer winnerSide
    let loser := m1.getPlayer winnerSide.other
    -- in-memory session updates, before the first await
    -- (the `|| 0` fallbacks are the identity on the model's Int fields)
    let st2 := updateSessionPlayer st1 m1.sessionCode winner.id
      (fun p => { p with hp := winner.hp, damageDealt := p.damageDealt + winner.damageDealt })
    let st2 := updateSessionPlayer st2 m1.sessionCode loser.id
      (fun p => { p with
        hp := 0
        eliminated := true
        damageReceived := p.damageReceived + loser.damageReceived })
    match storage with
    | .throws => (st2, [])  -- exception propagates; nothing below runs
    | .ok sessionRow winnerUserFound loserUserFound =>
      match sessionRow with
      | none => (st2, [])  -- console.error('Session not found for match'); return;
      | some _dbSession =>
        -- the INSERT INTO mini_game_results (guarded by winnerUser && loserUser)
        -- has no in-memory effect
        let _ := winnerUserFound && loserUserFound
        let resultsP1 : PlayerResult := {
          id := m1.player1.id, nickname := m1.player1.nickname, hp := m1.player1.hp
          place := if winnerId = m1.player1.id then 1 else 2
          correctAnswers := m1.player1.correctAnswers
          damageDealt := m1.player1.damageDealt
          damageReceived := m1.player1.damageReceived }
        let resultsP2 : PlayerResult := {
          id := m1.player2.id, nickname := m1.player2.nickname, hp := m1.player2.hp
          place := if winnerId = m1.player2.id then 1 else 2
          correctAnswers := m1.player2.correctAnswers
          damageDealt := m1.player2.damageDealt
          damageReceived := m1.player2.damageReceived }
        let evs := [
          Out.send m1.player1.id (.matchEnd winnerId resultsP1 resultsP2),
          Out.send m1.player2.id (.matchEnd winnerId resultsP1 resultsP2)]
        -- activeMatches.delete(matchId)
        let st3 := { st2 with activeMatches := eraseA st2.activeMatches matchId }
        -- tournament continuation (the source reuses the session object it
        -- mutated above; looking it up again in st3 reads the same record)
        match lookupA st3.sessions m1.sessionCode with
        | none => (st3, evs)
        | some session =>
          let activePlayers := session.players.filter
            (fun kv => kv.2.hp > 0 && !kv.2.eliminated)
          if activePlayers.length > 1 then
            -- body is empty comments; the dangling `winnerPlayer` reference in
            -- the guard throws after every in-memory effect above, and nothing
            -- follows it in the function
            (st3, evs)
          else if activePlayers.length = 1 then
            match activePlayers.head? with
            | some (_, finalWinner) =>
              let tEvs := session.players.map (fun kv =>
                Out.send kv.2.studentId (.tournamentEnd {
                  id := finalWinner.studentId
                  nickname := finalWinner.studentNickname
                  hp := finalWinner.hp
                  correctAnswers := finalWinner.correctAnswers
                  damageDealt := finalWinner.damageDealt
                  damageReceived := finalWinner.damageReceived }))
              -- UPDATE mini_game_sessions SET status='completed' — no in-memory effect
              (st3, evs ++ tEvs)
            | none => (st3, evs)  -- unreachable when length = 1
          else
            (st3, evs)

/-- `matchManager.startRound`. -/
def startRound (st : ServerState) (matchId : String) : ServerState × List Out :=
  match lookupA st.activeMatches matchId with
  | none => (st, [])
  | some m =>
    let m1 : GameMatch := { m with
      status := .active
      currentRound := m.currentRound + 1
      player1 := { m.player1 with ready := false }
      player2 := { m.player2 with ready := false }
      activeSpells := []
      roundTimer := true }
    let st1 := { st with activeMatches := setA st.activeMatches matchId m1 }
    (st1, [
      Out.schedule (.endRoundAt matchId) 10000,
      Out.send m1.player1.id (.roundStart m1.currentRound 10000 m1.player1.hp m1.player2.hp),
      Out.send m1.player2.id (.roundStart m1.currentRound 10000 m1.player1.hp m1.player2.hp)])

/-- `matchManager.handleRoundReady`. -/
def handleRoundReady (st : ServerState) (matchId : String) (side : Side) :
    ServerState × List Out :=
  match lookupA st.activeMatches matchId with
  | none => (st, [])
  | some m =>
    let player := m.getPlayer side
    let m1 := m.setPlayer side { player with ready := true }
    let st1 := { st with activeMatches := setA st.activeMatches matchId m1 }
    if m1.player1.ready && m1.player2.ready then
      startRound st1 matchId
    else
      (st1, [])

/-- `matchManager.handlePlayerMove`. -/
def handlePlayerMove (st : ServerState) (matchId : String) (side : Side)
    (position : Pos) : ServerState × List Out :=
  match lookupA st.activeMatches matchId with
  | none => (st, [])
  | some m =>
    if m.status ≠ .active then (st, [])
    else
      let player := m.getPlayer side
      let newPos := validatePosition position side
      let m1 := m.setPlayer side { player with position := newPos }
      let st1 := { st with activeMatches := setA st.activeMatches matchId m1 }
      let opponent := m.getPlayer side.other
      (st1, [.send opponent.id (.opponentMove newPos side)])

/-- `matchManager.handleSpellCast`.  `now` is `Date.now()`, `newSpellId` the
generated `spell_..._...` id. -/
def handleSpellCast (now : Int) (newSpellId : String) (st : ServerState)
    (matchId : String) (side : Side) (spellType : String) (direction : Int) :
    ServerState × List Out :=
  match lookupA st.activeMatches matchId with
  | none => (st, [])
  | some m =>
    if m.status ≠ .active then (st, [])
    else
      let player := m.getPlayer side
      let damage := calculateSpellDamage spellType player.damage
      let offsetDistance : Int := 40
      let opponent := m.getPlayer side.other
      let startPosition : Pos :=
        if direction = 1 then
          ⟨player.position.x + offsetDistance, player.position.y⟩
        else
          ⟨player.position.x - offsetDistance, player.position.y⟩
      let targetPosition := opponent.position
      let spell : Spell := {
        id := newSpellId
        spellType := spellType
        startPosition := startPosition
        targetPosition := targetPosition
        direction := direction
        damage := damage
        speed := if spellType = "fire_arrow" then 10 else 5
        owner := side
        createdAt := now }
      let m1 := { m with activeSpells := m.activeSpells ++ [spell] }
      let st1 := { st with activeMatches := setA st.activeMatches matchId m1 }
      (st1, [.send m1.player1.id (.spellCast spell),
             .send m1.player2.id (.spellCast spell)])

/-- `matchManager.handleSpellHit`. -/
def handleSpellHit (storage : Storage) (st : ServerState)
    (matchId spellId : String) (hitPlayerId : Side) : ServerState × List Out :=
  match lookupA st.activeMatches matchId with
  | none => (st, [])
  | some m =>
    match m.activeSpells.find? (fun s => s.id == spellId) with
    | none => (st, [])  -- findIndex === -1
    | some spell =>
      let hitPlayer := m.getPlayer hitPlayerId
      let caster := m.getPlayer spell.owner
      -- match.activeSpells.splice(spellIndex, 1)
      let m1 := { m with activeSpells := m.activeSpells.eraseP (fun s => s.id == spellId) }
      -- apply damage
      let oldHp := hitPlayer.hp
      let damageAmount := spell.damage
      let calculatedNewHp := oldHp - damageAmount
      let m2 := m1.setPlayer hitPlayerId { hitPlayer with hp := max 0 calculatedNewHp }
      -- caster.damageDealt += spell.damage; hitPlayer.damageReceived += spell.damage
      -- (sequential mutations on possibly-aliased records, re-read between steps)
      let m3 := m2.setPlayer spell.owner
        (let c := m2.getPlayer spell.owner
         { c with damageDealt := c.damageDealt + spell.damage })
      let m4 := m3.setPlayer hitPlayerId
        (let h := m3.getPlayer hitPlayerId
         { h with damageReceived := h.damageReceived + spell.damage })
      let st1 := { st with activeMatches := setA st.activeMatches matchId m4 }
      let msg := Msg.spellHit spellId hitPlayerId spell.damage
        (m4.getPlayer hitPlayerId).hp oldHp m4.player1.hp m4.player2.hp
      let evs := [Out.send m4.player1.id msg, Out.send m4.player2.id msg]
      -- if (hitPlayer.hp <= 0) await this.endMatch(matchId, caster.id)
      if (m4.getPlayer hitPlayerId).hp ≤ 0 then
        let r := endMatch storage st1 matchId caster.id
        (r.1, evs ++ r.2)
      else
        (st1, evs)

/-- `matchManager.endRound` (the round-timer callback). -/
def endRound (storage : Storage) (st : ServerState) (matchId : String) :
    ServerState × List Out :=
  match lookupA st.activeMatches matchId with
  | none => (st, [])
  | some m =>
    -- if (match.roundTimer) { clearTimeout(...); match.roundTimer = null; }
    -- match.status = 'waiting';
    let m1 : GameMatch := { m with roundTimer := false, status := .waiting }
    let st1 := { st with activeMatches := setA st.activeMatches matchId m1 }
    let evs := [
      Out.send m1.player1.id (.roundEnd m1.currentRound m1.player1.hp m1.player2.hp),
      Out.send m1.player2.id (.roundEnd m1.currentRound m1.player1.hp m1.player2.hp)]
    if m1.player1.hp > 0 && m1.player2.hp > 0 then
      (st1, evs ++ [Out.schedule (.startRoundAt matchId) 3000])
    else
      let winnerId := if m1.player1.hp > 0 then m1.player1.id else m1.player2.id
      let r := endMatch storage st1 matchId winnerId
      (r.1, evs ++ r.2)

/-- `matchManager.handlePlayerDisconnect`: forfeit to the opponent. -/
def handlePlayerDisconnect (storage : Storage) (st : ServerState)
    (matchId : String) (playerId : Side) : ServerState × List Out :=
  match lookupA st.activeMatches matchId with
  | none => (st, [])
  | some m =>
    let opponentId := if playerId = Side.player1 then m.player2.id else m.player1.id
    endMatch storage st matchId opponentId

/-- `matchManager.getMatch`. -/
def getMatch (st : ServerState) (matchId : String) : Option GameMatch :=
  lookupA st.activeMatches matchId

/-- The spec's queue/match exclusion invariant: no student id is at once in some
session's queue and referenced by a registered (live) match. -/
def noQueueMatchOverlap (st : ServerState) : Bool :=
  st.activeMatches.all fun kv =>
    st.queues.all fun kq =>
      kq.2.all fun e =>
        e.studentId != kv.2.player1.id && e.studentId != kv.2.player2.id

/-- Every student id currently sitting in any session's queue, in queue order. -/
def allQueuedIds (st : ServerState) : List String :=
  st.queues.flatMap fun kq => kq.2.map QueueEntry.studentId

/-- Read one tournament player record: `getSession(sc)?.players.get(pid)`. -/
def sessionPlayerOf (st : ServerState) (sessionCode studentId : String) :
    Option SessionPlayer :=
  (lookupA st.sessions sessionCode).bind fun s => lookupA s.players studentId

/-- `match[winnerId === match.player1.id ? 'player1' : 'player2']` in `endMatch`. -/
def matchWinner (m : GameMatch) (winnerId : String) : MatchPlayer :=
  if winnerId = m.player1.id then m.player1 else m.player2

/-- `match[winnerId === match.player1.id ? 'player2' : 'player1']` in `endMatch`. -/
def matchLoser (m : GameMatch) (winnerId : String) : MatchPlayer :=
  if winnerId = m.player1.id then m.player2 else m.player1

/-- Concrete tournament records for executable scenarios. -/
def recA : SessionPlayer :=
  { studentId := "A", studentNickname := "a", selectedCharacter := some "archer",
    correctAnswers := 3, damage := 20, hp := 200, inQueue := false, matchId := none }

def recB : SessionPlayer :=
  { studentId := "B", studentNickname := "b", selectedCharacter := some "wizard",
    correctAnswers := 2, damage := 15, hp := 200, inQueue := false, matchId := none }

def recC : SessionPlayer :=
  { studentId := "C", studentNickname := "c", selectedCharacter := none,
    correctAnswers := 0, damage := 5, hp := 200, inQueue := false, matchId := none }

/-- A record whose `matchId` is still set (a stale or live match reference). -/
def recD : SessionPlayer :=
  { studentId := "D", studentNickname := "d", selectedCharacter := none,
    correctAnswers := 1, damage := 10, hp := 200, inQueue := false,
    matchId := some "mOld" }

/-- Initial state: one session `"S"` with three alive players, nobody queued,
no matches. -/
def demo0 : ServerState :=
  { queues := [], sessions := [("S", { players := [("A", recA), ("B", recB), ("C", recC)] })],
    activeMatches := [] }

/-- `demo0` after `A` enters the queue. -/
def demo1 : ServerState := (enterQueue 0 "m1" demo0 "S" "A").1

/-- `demo1` after `B` enters the queue: the embedded `tryMatch` pairs `A` and `B`
into match `"m1"` and empties the queue. -/
def demo2 : ServerState := (enterQueue 1 "m1" demo1 "S" "B").1

/-- `demo2` after `A` — still referenced by live match `"m1"` — calls
`enterQueue` again: the call succeeds and re-appends `A` to the queue. -/
def demo3 : ServerState := (enterQueue 2 "m2" demo2 "S" "A").1

/-- A state for the C6 scenario: player `D`'s tournament record carries a
non-null `matchId` while `D` is alive and not eliminated. -/
def demoC6 : ServerState :=
  { queues := [], sessions := [("S", { players := [("D", recD)] })], activeMatches := [] }


/-- `demo2` after player-1 reports ready. -/
def demoReady1 : ServerState := (handleRoundReady demo2 "m1" Side.player1).1

/-- `demoReady1` after player-2 reports ready: both flags set, so `startRound`
runs — match `"m1"` becomes `active` in round 1 with an armed round timer. -/
def demoActive : ServerState := (handleRoundReady demoReady1 "m1" Side.player2).1

/-- `demoActive` after `A` casts a `fire_arrow` (damage 20, spell id `"sp1"`). -/
def demoSpell : ServerState :=
  (handleSpellCast 5 "sp1" demoActive "m1" Side.player1 "fire_arrow" 1).1

/-- A queue entry literal for FIFO scenarios. -/
def qEntry (id : String) (d : Int) : QueueEntry :=
  { studentId := id, sessionCode := "S", damage := d, hp := 200,
    selectedCharacter := none, studentNickname := id, enteredAt := 0 }

/-- A state whose session `"S"` queue holds four entries enqueued in order
`A, B, C, D`. -/
def demoQueue4 : ServerState :=
  { queues := [("S", [qEntry "A" 20, qEntry "B" 15, qEntry "C" 5, qEntry "D" 10])],
    sessions := demo0.sessions, activeMatches := [] }

/-- A record already eliminated from the tournament (hp exhausted). -/
def recElim : SessionPlayer :=
  { studentId := "E", studentNickname := "e", selectedCharacter := none,
    correctAnswers := 0, damage := 5, hp := 0, inQueue := false,
    eliminated := true, matchId := none }

/-- A state whose only session player is eliminated. -/
def demoElim : ServerState :=
  { queues := [], sessions := [("S", { players := [("E", recElim)] })],
    activeMatches := [] }

/-- The live match stored under `"m1"` in `demoActive`. -/
def demoActiveMatch : GameMatch :=
  (lookupA demoActive.activeMatches "m1").get (by decide)

/-- The live match stored under `"m1"` in `demo2`. -/
def demo2Match : GameMatch := (lookupA demo2.activeMatches "m1").get (by decide)

/-- The tournament record of `A` in `demo2`. -/
def wpA : SessionPlayer := (sessionPlayerOf demo2 "S" "A").get (by decide)

/-- The tournament record of `B` in `demo2`. -/
def lpB : SessionPlayer := (sessionPlayerOf demo2 "S" "B").get (by decide)

/-- The live match stored under `"m1"` in `demoSpell`. -/
def demoSpellMatch : GameMatch :=
  (lookupA demoSpell.activeMatches "m1").get (by decide)

/-- The active spell `"sp1"` in `demoSpell`. -/
def demoSpellObj : Spell :=
  (demoSpellMatch.activeSpells.find? (fun s => s.id == "sp1")).get (by decide)

/-! ## Association-list lemmas -/

theorem lookupA_cons {α : Type} (k' : String) (v' : α) (t : List (String × α)) (k : String) :
    lookupA ((k', v') :: t) k = if k' = k then some v' else lookupA t k := rfl

theorem setA_cons {α : Type} (k' : String) (v' : α) (t : List (String × α)) (k : String) (v : α) :
    setA ((k', v') :: t) k v = if k' = k then (k, v) :: t else (k', v') :: setA t k v := rfl

theorem eraseA_cons {α : Type} (k' : String) (v' : α) (t : List (String × α)) (k : String) :
    eraseA ((k', v') :: t) k = if k' = k then t else (k', v') :: eraseA t k := rfl

theorem lookupA_setA_self {α : Type} (l : List (String × α)) (k : String) (v : α) :
    lookupA (setA l k v) k = some v := by
  induction l with
  | nil => simp [setA, lookupA]
  | cons p t ih =>
    obtain ⟨k', v'⟩ := p
    by_cases hk : k' = k
    · subst hk; simp [setA_cons, lookupA_cons]
    · simp [setA_cons, hk, lookupA_cons, ih]

theorem lookupA_setA_ne {α : Type} (l : List (String × α)) {k k' : String} (v : α)
    (h : k' ≠ k) : lookupA (setA l k v) k' = lookupA l k' := by
  have hkk : k ≠ k' := Ne.symm h
  induction l with
  | nil => simp [setA, lookupA, hkk]
  | cons p t ih =>
    obtain ⟨k₀, v₀⟩ := p
    by_cases hk : k₀ = k
    · subst hk
      simp [setA_cons, lookupA_cons, hkk]
    · simp [setA_cons, hk, lookupA_cons, ih]

theorem lookupA_mem {α : Type} {l : List (String × α)} {k : String} {v : α}
    (h : lookupA l k = some v) : (k, v) ∈ l := by
  induction l with
  | nil => simp [lookupA] at h
  | cons p t ih =>
    obtain ⟨k', v'⟩ := p
    rw [lookupA_cons] at h
    by_cases hk : k' = k
    · rw [if_pos hk] at h
      obtain rfl := Option.some.inj h
      subst hk
      exact List.mem_cons_self _ _
    · rw [if_neg hk] at h
      exact List.mem_cons_of_mem _ (ih h)

theorem lookupA_eq_none_iff {α : Type} {l : List (String × α)} {k : String} :
    lookupA l k = none ↔ k ∉ l.map Prod.fst := by
  induction l with
  | nil => simp [lookupA]
  | cons p t ih =>
    obtain ⟨k', v'⟩ := p
    rw [lookupA_cons]
    by_cases hk : k' = k
    · subst hk; simp
    · rw [if_neg hk]
      simp only [List.map_cons, List.mem_cons]
      rw [ih]
      constructor
      · rintro hnot (h1 | h1)
        · exact hk h1.symm
        · exact hnot h1
      · intro hnot
        exact fun h1 => hnot (Or.inr h1)

theorem setA_eq_append {α : Type} {l : List (String × α)} {k : String} (v : α)
    (h : k ∉ l.map Prod.fst) : setA l k v = l ++ [(k, v)] := by
  induction l with
  | nil => simp [setA]
  | cons p t ih =>
    obtain ⟨k', v'⟩ := p
    simp only [List.map_cons, List.mem_cons] at h
    push_neg at h
    rw [setA_cons, if_neg (Ne.symm h.1), ih h.2]
    simp

theorem mem_setA {α : Type} {l : List (String × α)} {k : String} {v : α} {x : String × α}
    (h : x ∈ setA l k v) : x ∈ l ∨ x = (k, v) := by
  induction l with
  | nil => simpa [setA] using h
  | cons p t ih =>
    obtain ⟨k', v'⟩ := p
    rw [setA_cons] at h
    by_cases hk : k' = k
    · rw [if_pos hk] at h
      rcases List.mem_cons.mp h with h1 | h1
      · right; exact h1
      · left; exact List.mem_cons_of_mem _ h1
    · rw [if_neg hk] at h
      rcases List.mem_cons.mp h with h1 | h1
      · left; exact h1 ▸ List.mem_cons_self _ _
      · rcases ih h1 with h2 | h2
        · left; exact List.mem_cons_of_mem _ h2
        · right; exact h2

theorem mem_setA_of_nodupKeys {α : Type} {l : List (String × α)} {k : String} {v : α}
    {x : String × α} (hk : (l.map Prod.fst).Nodup) (h : x ∈ setA l k v) :
    (x ∈ l ∧ x.1 ≠ k) ∨ x = (k, v) := by
  induction l with
  | nil => simpa [setA] using h
  | cons p t ih =>
    obtain ⟨k', v'⟩ := p
    simp only [List.map_cons, List.nodup_cons] at hk
    rw [setA_cons] at h
    by_cases hkk : k' = k
    · rw [if_pos hkk] at h
      rcases List.mem_cons.mp h with h1 | h1
      · right; exact h1
      · left
        refine ⟨List.mem_cons_of_mem _ h1, ?_⟩
        intro hx
        apply hk.1
        rw [hkk]
        rw [← hx]
        exact List.mem_map_of_mem Prod.fst h1
    · rw [if_neg hkk] at h
      rcases List.mem_cons.mp h with h1 | h1
      · left
        subst h1
        exact ⟨List.mem_cons_self _ _, hkk⟩
      · rcases ih hk.2 h1 with ⟨h2, h3⟩ | h2
        · left; exact ⟨List.mem_cons_of_mem _ h2, h3⟩
        · right; exact h2

theorem keys_setA_nodup {α : Type} {l : List (String × α)} {k : String} {v : α}
    (hk : (l.map Prod.fst).Nodup) : ((setA l k v).map Prod.fst).Nodup := by
  induction l with
  | nil => simp [setA]
  | cons p t ih =>
    obtain ⟨k', v'⟩ := p
    simp only [List.map_cons, List.nodup_cons] at hk
    rw [setA_cons]
    by_cases hkk : k' = k
    · subst hkk
      rw [if_pos rfl]
      simp only [List.map_cons, List.nodup_cons]
      exact hk
    · rw [if_neg hkk]
      simp only [List.map_cons, List.nodup_cons]
      refine ⟨?_, ih hk.2⟩
      intro hx
      rw [List.mem_map] at hx
      obtain ⟨y, hy, hyk⟩ := hx
      rcases mem_setA hy with h1 | h1
      · exact hk.1 (hyk ▸ List.mem_map_of_mem Prod.fst h1)
      · apply hkk
        rw [h1] at hyk
        exact hyk.symm ▸ rfl

theorem lookupA_eraseA_self_of_nodupKeys {α : Type} {l : List (String × α)} {k : String}
    (hk : (l.map Prod.fst).Nodup) : lookupA (eraseA l k) k = none := by
  induction l with
  | nil => simp [eraseA, lookupA]
  | cons p t ih =>
    obtain ⟨k', v'⟩ := p
    simp only [List.map_cons, List.nodup_cons] at hk
    rw [eraseA_cons]
    by_cases hkk : k' = k
    · rw [if_pos hkk]
      subst hkk
      exact lookupA_eq_none_iff.mpr hk.1
    · rw [if_neg hkk, lookupA_cons, if_neg hkk]
      exact ih hk.2

theorem updateSessionPlayer_queues (st : ServerState) (sc pid : String)
    (f : SessionPlayer → SessionPlayer) :
    (updateSessionPlayer st sc pid f).queues = st.queues := by
  unfold updateSessionPlayer
  split
  · rfl
  · split
    · rfl
    · rfl

theorem updateSessionPlayer_activeMatches (st : ServerState) (sc pid : String)
    (f : SessionPlayer → SessionPlayer) :
    (updateSessionPlayer st sc pid f).activeMatches = st.activeMatches := by
  unfold updateSessionPlayer
  split
  · rfl
  · split
    · rfl
    · rfl

/-! ## Claim theorems -/

/-- C9: spell damage — the baseline kind `fire_arrow` deals the caster's combat
stat unchanged; the alternate kind `water_spell` deals `⌊stat * 1.5⌋`
(floor, not round), a non-negative integer whenever the stat is non-negative;
in particular a base damage of 10 yields exactly 15. -/
theorem calculateSpellDamage_spec (b : Int) :
    calculateSpellDamage "fire_arrow" b = b ∧
    calculateSpellDamage "water_spell" b = ⌊(b : ℚ) * 1.5⌋ ∧
    (0 ≤ b → 0 ≤ calculateSpellDamage "fire_arrow" b ∧
             0 ≤ calculateSpellDamage "water_spell" b) ∧
    calculateSpellDamage "water_spell" 10 = 15 := by
  have hfa : ∀ c : Int, calculateSpellDamage "fire_arrow" c = c := by
    intro c; simp [calculateSpellDamage]
  have hws : ∀ c : Int, calculateSpellDamage "water_spell" c = Int.fdiv (c * 3) 2 := by
    intro c; simp [calculateSpellDamage]
  refine ⟨hfa b, ?_, fun hb => ⟨hfa b ▸ hb, ?_⟩, by decide⟩
  · rw [hws b, Int.fdiv_eq_ediv _ (by norm_num)]
    have h2 : (b : ℚ) * 1.5 = ((b * 3 : ℤ) : ℚ) / ((2 : ℕ) : ℚ) := by push_cast; ring
    rw [h2, Rat.floor_intCast_div_natCast]
    norm_num
  · rw [hws b, Int.fdiv_eq_ediv _ (by norm_num)]
    positivity

/-- C9 witness: instantiation at combat stat 10. -/
theorem calculateSpellDamage_spec_witness :
    calculateSpellDamage "water_spell" 10 = ⌊((10 : Int) : ℚ) * 1.5⌋ ∧
    (0 : Int) ≤ calculateSpellDamage "water_spell" 10 := by
  refine ⟨(calculateSpellDamage_spec 10).2.1, ?_⟩
  exact ((calculateSpellDamage_spec 10).2.2.1 (by norm_num)).2

/-- C10: every spell kind other than `water_spell` — including unknown kinds,
which are not rejected — is treated as the baseline 1.0-multiplier kind and
deals the caster's base damage unchanged. -/
theorem calculateSpellDamage_unknown_kind (spellType : String) (b : Int)
    (h : spellType ≠ "water_spell") : calculateSpellDamage spellType b = b := by
  by_cases hfa : spellType = "fire_arrow"
  · simp [calculateSpellDamage, hfa]
  · simp [calculateSpellDamage, hfa, h]

/-- C10 witness: an arbitrary malformed kind falls through to the base damage. -/
theorem calculateSpellDamage_unknown_kind_witness :
    calculateSpellDamage "ice_blast" 7 = 7 :=
  calculateSpellDamage_unknown_kind "ice_blast" 7 (by decide)

/-- C8: for every move input, the stored position is the input clamped into the
mover's half of the arena (player1: x in [0,400]; player2: x in [400,800]; both:
y in [0,600]); in particular player1's move (-50,700) stores (0,600) and
player2's move (900,-10) stores (800,0). -/
theorem handlePlayerMove_clamps (st : ServerState) (matchId : String) (side : Side)
    (position : Pos) (m : GameMatch)
    (hm : lookupA st.activeMatches matchId = some m)
    (hactive : m.status = .active) :
    (lookupA (handlePlayerMove st matchId side position).1.activeMatches matchId =
      some (m.setPlayer side
        { m.getPlayer side with position := validatePosition position side })) ∧
    ((handlePlayerMove st matchId side position).2 =
      [.send (m.getPlayer side.other).id
        (.opponentMove (validatePosition position side) side)]) ∧
    (side = .player1 → 0 ≤ (validatePosition position side).x ∧
      (validatePosition position side).x ≤ 400) ∧
    (side = .player2 → 400 ≤ (validatePosition position side).x ∧
      (validatePosition position side).x ≤ 800) ∧
    (0 ≤ (validatePosition position side).y ∧ (validatePosition position side).y ≤ 600) ∧
    validatePosition ⟨-50, 700⟩ .player1 = ⟨0, 600⟩ ∧
    validatePosition ⟨900, -10⟩ .player2 = ⟨800, 0⟩ := by
  have hmove : handlePlayerMove st matchId side position =
      (({ st with activeMatches := (setA st.activeMatches matchId
          (m.setPlayer side
            { m.getPlayer side with position := validatePosition position side })) }),
       [.send (m.getPlayer side.other).id
         (.opponentMove (validatePosition position side) side)]) := by
    unfold handlePlayerMove
    rw [hm]
    simp [hactive]
  refine ⟨?_, ?_, ?_, ?_, ?_, by decide, by decide⟩
  · rw [hmove]
    exact lookupA_setA_self _ _ _
  · rw [hmove]
  · intro hs
    subst hs
    simp only [validatePosition]
    constructor <;> simp
  · intro hs
    subst hs
    simp only [validatePosition]
    constructor <;> simp
  · cases side <;> simp [validatePosition]


/-- C8 witness: moving player1 to (-50,700) in the live demo match stores the
clamped position (0,600). -/
theorem handlePlayerMove_clamps_witness :
    lookupA (handlePlayerMove demoActive "m1" Side.player1 ⟨-50, 700⟩).1.activeMatches "m1" =
      some (demoActiveMatch.setPlayer Side.player1
        { demoActiveMatch.getPlayer Side.player1 with position := ⟨0, 600⟩ }) := by
  have h := handlePlayerMove_clamps demoActive "m1" Side.player1 ⟨-50, 700⟩
    demoActiveMatch (by decide) (by decide)
  have hv : validatePosition ⟨-50, 700⟩ Side.player1 = ⟨0, 600⟩ := by decide
  rw [← hv]
  exact h.1

theorem createMatch_queues (mid : String) (st : ServerState) (sc : String)
    (p1 p2 : QueueEntry) : (createMatch mid st sc p1 p2).queues = st.queues := rfl

theorem tryMatch_step (mid : String) (st : ServerState) (sc : String)
    (e1 e2 : QueueEntry) (rest : List QueueEntry)
    (hq : lookupA st.queues sc = some (e1 :: e2 :: rest)) :
    (lookupA (tryMatch mid st sc).1.activeMatches mid).map
        (fun m => (m.player1.id, m.player2.id)) = some (e1.studentId, e2.studentId) ∧
    lookupA (tryMatch mid st sc).1.queues sc = some rest ∧
    (2 ≤ rest.length → Out.schedule (.tryMatchRetry sc) 100 ∈ (tryMatch mid st sc).2) := by
  simp only [tryMatch, hq]
  refine ⟨?_, ?_, ?_⟩
  · simp only [createMatch]
    rw [lookupA_setA_self]
    rfl
  · rw [createMatch_queues, updateSessionPlayer_queues, updateSessionPlayer_queues]
    exact lookupA_setA_self _ _ _
  · intro hlen
    rw [if_pos hlen]
    simp

/-- C4: queue pairing is strictly FIFO — with entries enqueued in order
`e1, e2, e3, e4, …`, the first pairing pops the two oldest into a match
`(e1, e2)` and leaves `e3 :: e4 :: rest` in order, schedules a retry, and the
retried pairing produces the match `(e3, e4)`, leaving `rest` in order. -/
theorem tryMatch_fifo (st : ServerState) (sc mid1 mid2 : String)
    (e1 e2 e3 e4 : QueueEntry) (rest : List QueueEntry)
    (hq : lookupA st.queues sc = some (e1 :: e2 :: e3 :: e4 :: rest)) :
    (lookupA (tryMatch mid1 st sc).1.activeMatches mid1).map
        (fun m => (m.player1.id, m.player2.id)) = some (e1.studentId, e2.studentId) ∧
    lookupA (tryMatch mid1 st sc).1.queues sc = some (e3 :: e4 :: rest) ∧
    Out.schedule (.tryMatchRetry sc) 100 ∈ (tryMatch mid1 st sc).2 ∧
    (lookupA (tryMatch mid2 (tryMatch mid1 st sc).1 sc).1.activeMatches mid2).map
        (fun m => (m.player1.id, m.player2.id)) = some (e3.studentId, e4.studentId) ∧
    lookupA (tryMatch mid2 (tryMatch mid1 st sc).1 sc).1.queues sc = some rest := by
  obtain ⟨h1, h2, h3⟩ := tryMatch_step mid1 st sc e1 e2 (e3 :: e4 :: rest) hq
  obtain ⟨h4, h5, _⟩ := tryMatch_step mid2 (tryMatch mid1 st sc).1 sc e3 e4 rest h2
  exact ⟨h1, h2, h3 (by simp), h4, h5⟩

/-- C4 witness: on queue `[A, B, C, D]` the first pairing makes match `(A, B)`
and the retried pairing makes match `(C, D)`. -/
theorem tryMatch_fifo_witness :
    (lookupA (tryMatch "m1" demoQueue4 "S").1.activeMatches "m1").map
        (fun m => (m.player1.id, m.player2.id)) = some ("A", "B") ∧
    (lookupA (tryMatch "m2" (tryMatch "m1" demoQueue4 "S").1 "S").1.activeMatches "m2").map
        (fun m => (m.player1.id, m.player2.id)) = some ("C", "D") := by
  have h := tryMatch_fifo demoQueue4 "S" "m1" "m2" (qEntry "A" 20) (qEntry "B" 15)
    (qEntry "C" 5) (qEntry "D" 10) [] (by decide)
  exact ⟨h.1, h.2.2.2.1⟩

/-- C6 counterexample: the tournament record of `D` shows a non-null
`matchId` (`"mOld"`) with hp 200 and not eliminated; the claim requires
`enterQueue` to fail with an error and append nothing, but the call succeeds —
it appends a `QueueEntry` (`queue-joined` at position 1), and clears the
record's `matchId` instead of rejecting it. -/
theorem enterQueue_matchId_not_checked :
    (sessionPlayerOf demoC6 "S" "D").map (fun p => (p.matchId, p.hp, p.eliminated)) =
      some (some "mOld", 200, false) ∧
    (enterQueue 7 "mNew" demoC6 "S" "D").2 = [Out.send "D" (Msg.queueJoined 1)] ∧
    getQueuePosition (enterQueue 7 "mNew" demoC6 "S" "D").1 "S" "D" = some 1 ∧
    (sessionPlayerOf (enterQueue 7 "mNew" demoC6 "S" "D").1 "S" "D").map
      (fun p => p.matchId) = some none := by
  decide

/-- C6 amended: `enterQueue` fails with a single error reply — leaving the
sessions, the matches and every queue's contents unchanged — whenever the
tournament record shows the player eliminated or with hp ≤ 0; a non-null
`matchId` on the record is not a failure condition (it is cleared on success,
see the counterexample). -/
theorem enterQueue_not_eligible (now : Int) (mid : String) (st : ServerState)
    (sc pid : String) (session : Session) (player : SessionPlayer)
    (hs : lookupA st.sessions sc = some session)
    (hp : lookupA session.players pid = some player)
    (helim : player.eliminated = true ∨ player.hp ≤ 0) :
    (enterQueue now mid st sc pid).1.sessions = st.sessions ∧
    (enterQueue now mid st sc pid).1.activeMatches = st.activeMatches ∧
    (∀ sc', (lookupA (enterQueue now mid st sc pid).1.queues sc').getD [] =
            (lookupA st.queues sc').getD []) ∧
    ∃ msg, (enterQueue now mid st sc pid).2 = [Out.send pid (Msg.error msg)] := by
  have hcond : (player.eliminated || decide (player.hp ≤ 0)) = true := by
    rcases helim with h | h
    · simp [h]
    · simp [h]
  by_cases hnone : (lookupA st.queues sc).isNone
  · obtain hlook := Option.isNone_iff_eq_none.mp hnone
    simp only [enterQueue, hnone, if_true, lookupA_setA_self, Option.getD_some]
    simp only [List.find?_nil, Option.isSome_none, Bool.false_eq_true, if_false, hs, hp,
      hcond, if_true]
    refine ⟨trivial, trivial, ?_, ⟨_, rfl⟩⟩
    intro sc'
    by_cases hsc : sc' = sc
    · subst hsc
      rw [lookupA_setA_self, hlook]
      rfl
    · rw [lookupA_setA_ne _ _ hsc]
  · simp only [enterQueue, hnone, Bool.false_eq_true, if_false]
    by_cases hfind : (((lookupA st.queues sc).getD []).find?
        (fun p => p.studentId == pid)).isSome
    · rw [if_pos hfind]
      exact ⟨rfl, rfl, fun sc' => rfl, ⟨_, rfl⟩⟩
    · simp only [hfind, Bool.false_eq_true, if_false, hs, hp, hcond, if_true]
      exact ⟨trivial, trivial, fun sc' => trivial, ⟨_, rfl⟩⟩

/-- C6 witness: an eliminated record (hp 0) is rejected with an error and no
state change. -/
theorem enterQueue_not_eligible_witness :
    (enterQueue 0 "x" demoElim "S" "E").1.sessions = demoElim.sessions ∧
    (∃ msg, (enterQueue 0 "x" demoElim "S" "E").2 = [Out.send "E" (Msg.error msg)]) := by
  have h := enterQueue_not_eligible 0 "x" demoElim "S" "E"
    { players := [("E", recElim)] } recElim (by decide) (by decide)
    (Or.inl (by decide))
  exact ⟨h.1, h.2.2.2⟩

theorem sessionPlayerOf_update_self (st : ServerState) (sc pid : String)
    (f : SessionPlayer → SessionPlayer) (p : SessionPlayer)
    (h : sessionPlayerOf st sc pid = some p) :
    sessionPlayerOf (updateSessionPlayer st sc pid f) sc pid = some (f p) := by
  unfold sessionPlayerOf at h
  cases hs : lookupA st.sessions sc with
  | none => rw [hs] at h; simp at h
  | some s =>
    rw [hs] at h
    simp only [Option.some_bind] at h
    unfold updateSessionPlayer
    simp only [hs, h]
    unfold sessionPlayerOf
    simp only [lookupA_setA_self, Option.some_bind]

theorem sessionPlayerOf_update_other (st : ServerState) (sc pid pid' : String)
    (f : SessionPlayer → SessionPlayer) (hne : pid' ≠ pid) :
    sessionPlayerOf (updateSessionPlayer st sc pid f) sc pid' =
      sessionPlayerOf st sc pid' := by
  unfold updateSessionPlayer
  cases hs : lookupA st.sessions sc with
  | none => simp only [hs]
  | some s =>
    cases hp : lookupA s.players pid with
    | none => simp only [hs, hp]
    | some p =>
      simp only [hs, hp]
      unfold sessionPlayerOf
      rw [hs]
      simp only [lookupA_setA_self, Option.some_bind]
      rw [lookupA_setA_ne _ _ hne]

/-- C7 counterexample: `endMatch` on a registered match with a failing storage
collaborator emits no `match-end` broadcast and leaves the match registered,
while the same call with working storage broadcasts and deregisters — the
in-memory completion does NOT proceed in full on storage failure. -/
theorem endMatch_storage_failure_skips_cleanup :
    (endMatch Storage.throws demo2 "m1" "A").2 = [] ∧
    (lookupA (endMatch Storage.throws demo2 "m1" "A").1.activeMatches "m1").isSome = true ∧
    (endMatch (Storage.ok (some ⟨1, 2⟩) true true) demo2 "m1" "A").2 ≠ [] ∧
    lookupA (endMatch (Storage.ok (some ⟨1, 2⟩) true true) demo2 "m1" "A").1.activeMatches
      "m1" = none := by
  decide

/-- C7 amended: when a storage query fails during `endMatch`, the in-memory
session updates made before the first awaited query still proceed (winner hp and
damage totals written, loser set to hp 0 and eliminated), and the match is
marked completed with its timer cleared — but the match-end broadcast is not
sent and the match is NOT deregistered: it stays in the registry. -/
theorem endMatch_storage_failure_behavior (st : ServerState) (matchId winnerId : String)
    (m : GameMatch) (wp lp : SessionPlayer)
    (hm : lookupA st.activeMatches matchId = some m)
    (hne : m.player1.id ≠ m.player2.id)
    (hw : sessionPlayerOf st m.sessionCode (matchWinner m winnerId).id = some wp)
    (hl : sessionPlayerOf st m.sessionCode (matchLoser m winnerId).id = some lp) :
    (endMatch Storage.throws st matchId winnerId).2 = [] ∧
    lookupA (endMatch Storage.throws st matchId winnerId).1.activeMatches matchId =
      some { m with status := .completed, roundTimer := false } ∧
    sessionPlayerOf (endMatch Storage.throws st matchId winnerId).1 m.sessionCode
        (matchWinner m winnerId).id =
      some { wp with hp := (matchWinner m winnerId).hp
                     damageDealt := wp.damageDealt + (matchWinner m winnerId).damageDealt } ∧
    sessionPlayerOf (endMatch Storage.throws st matchId winnerId).1 m.sessionCode
        (matchLoser m winnerId).id =
      some { lp with hp := 0
                     eliminated := true
                     damageReceived := lp.damageReceived + (matchLoser m winnerId).damageReceived } := by
  by_cases hwin : winnerId = m.player1.id
  · rw [matchWinner, if_pos hwin] at hw
    rw [matchLoser, if_pos hwin] at hl
    simp only [endMatch, hm, matchWinner, matchLoser, if_pos hwin, GameMatch.getPlayer,
      Side.other]
    refine ⟨trivial, ?_, ?_, ?_⟩
    · rw [updateSessionPlayer_activeMatches, updateSessionPlayer_activeMatches]
      exact lookupA_setA_self _ _ _
    · rw [sessionPlayerOf_update_other _ _ _ _ _ hne]
      exact sessionPlayerOf_update_self _ _ _ _ _ hw
    · refine sessionPlayerOf_update_self _ _ _ _ lp ?_
      rw [sessionPlayerOf_update_other _ _ _ _ _ (Ne.symm hne)]
      exact hl
  · rw [matchWinner, if_neg hwin] at hw
    rw [matchLoser, if_neg hwin] at hl
    simp only [endMatch, hm, matchWinner, matchLoser, if_neg hwin, GameMatch.getPlayer,
      Side.other]
    refine ⟨trivial, ?_, ?_, ?_⟩
    · rw [updateSessionPlayer_activeMatches, updateSessionPlayer_activeMatches]
      exact lookupA_setA_self _ _ _
    · rw [sessionPlayerOf_update_other _ _ _ _ _ (Ne.symm hne)]
      exact sessionPlayerOf_update_self _ _ _ _ _ hw
    · refine sessionPlayerOf_update_self _ _ _ _ lp ?_
      rw [sessionPlayerOf_update_other _ _ _ _ _ hne]
      exact hl


/-- C7 witness: on the live demo match with a throwing storage collaborator,
no events are emitted and the match object remains registered, marked
completed. -/
theorem endMatch_storage_failure_behavior_witness :
    (endMatch Storage.throws demo2 "m1" "A").2 = [] ∧
    lookupA (endMatch Storage.throws demo2 "m1" "A").1.activeMatches "m1" =
      some { demo2Match with status := .completed, roundTimer := false } := by
  have h := endMatch_storage_failure_behavior demo2 "m1" "A" demo2Match wpA lpB
    (by decide) (by decide) (by decide) (by decide)
  exact ⟨h.1, h.2.1⟩

theorem endRound_noop_of_absent (storage : Storage) (st : ServerState) (matchId : String)
    (h : lookupA st.activeMatches matchId = none) :
    endRound storage st matchId = (st, []) := by
  simp only [endRound, h]

theorem endMatch_ok_deregisters (st : ServerState) (matchId winnerId : String)
    (row : DbSessionRow) (wf lf : Bool)
    (hnd : (st.activeMatches.map Prod.fst).Nodup) :
    lookupA (endMatch (Storage.ok (some row) wf lf) st matchId winnerId).1.activeMatches
      matchId = none := by
  cases hm : lookupA st.activeMatches matchId with
  | none => simp only [endMatch, hm]
  | some m =>
    simp only [endMatch, hm]
    split
    · rw [updateSessionPlayer_activeMatches, updateSessionPlayer_activeMatches]
      exact lookupA_eraseA_self_of_nodupKeys (keys_setA_nodup hnd)
    · split
      · rw [updateSessionPlayer_activeMatches, updateSessionPlayer_activeMatches]
        exact lookupA_eraseA_self_of_nodupKeys (keys_setA_nodup hnd)
      · split
        · split
          · rw [updateSessionPlayer_activeMatches, updateSessionPlayer_activeMatches]
            exact lookupA_eraseA_self_of_nodupKeys (keys_setA_nodup hnd)
          · rw [updateSessionPlayer_activeMatches, updateSessionPlayer_activeMatches]
            exact lookupA_eraseA_self_of_nodupKeys (keys_setA_nodup hnd)
        · rw [updateSessionPlayer_activeMatches, updateSessionPlayer_activeMatches]
          exact lookupA_eraseA_self_of_nodupKeys (keys_setA_nodup hnd)

/-- C5 counterexample: `endRound` has no status guard — fired on a registered
match in `waiting` status (not `active`) it still broadcasts `round-end` to
both players and schedules the next round start, so it is not a no-op. -/
theorem endRound_no_status_guard :
    (lookupA demo2.activeMatches "m1").map (fun m => m.status) =
      some MatchStatus.waiting ∧
    (endRound Storage.throws demo2 "m1").2 =
      [Out.send "A" (Msg.roundEnd 0 200 200),
       Out.send "B" (Msg.roundEnd 0 200 200),
       Out.schedule (Delayed.startRoundAt "m1") 3000] := by
  decide

/-- C5 amended: `endRound` is a no-op exactly when the match is no longer in
the registry.  An `endMatch` whose storage calls succeed deregisters the match,
so a stale round timer firing afterwards finds no match and is a no-op — but
the no-op relies on deregistration, not on a status check (see the
counterexample: on a registered non-active match `endRound` still broadcasts). -/
theorem endRound_noop_iff_deregistered (storage : Storage) (st : ServerState)
    (matchId : String) (hnd : (st.activeMatches.map Prod.fst).Nodup) :
    (lookupA st.activeMatches matchId = none →
       endRound storage st matchId = (st, [])) ∧
    (∀ winnerId row wf lf,
       lookupA (endMatch (Storage.ok (some row) wf lf) st matchId
         winnerId).1.activeMatches matchId = none) ∧
    (∀ winnerId row wf lf,
       endRound storage
         (endMatch (Storage.ok (some row) wf lf) st matchId winnerId).1 matchId =
       ((endMatch (Storage.ok (some row) wf lf) st matchId winnerId).1, [])) := by
  refine ⟨endRound_noop_of_absent storage st matchId, ?_, ?_⟩
  · intro winnerId row wf lf
    exact endMatch_ok_deregisters st matchId winnerId row wf lf hnd
  · intro winnerId row wf lf
    exact endRound_noop_of_absent storage _ matchId
      (endMatch_ok_deregisters st matchId winnerId row wf lf hnd)

/-- C5 witness: a stale round timer firing after a successfully completed
`endMatch` of the demo match is a no-op. -/
theorem endRound_noop_iff_deregistered_witness :
    endRound Storage.throws
      (endMatch (Storage.ok (some ⟨1, 2⟩) true true) demo2 "m1" "A").1 "m1" =
    ((endMatch (Storage.ok (some ⟨1, 2⟩) true true) demo2 "m1" "A").1, []) :=
  (endRound_noop_iff_deregistered Storage.throws demo2 "m1" (by decide)).2.2
    "A" ⟨1, 2⟩ true true

theorem getPlayer_setPlayer_self (m : GameMatch) (s : Side) (p : MatchPlayer) :
    (m.setPlayer s p).getPlayer s = p := by
  cases s <;> rfl

theorem getPlayer_setPlayer_other (m : GameMatch) (s s' : Side) (p : MatchPlayer)
    (h : s' ≠ s) : (m.setPlayer s p).getPlayer s' = m.getPlayer s' := by
  cases s <;> cases s' <;> first | rfl | exact absurd rfl h

theorem endMatch_registry_cases (storage : Storage) (st : ServerState)
    (matchId winnerId : String) (hnd : (st.activeMatches.map Prod.fst).Nodup) :
    lookupA (endMatch storage st matchId winnerId).1.activeMatches matchId = none ∨
    ∃ m, lookupA st.activeMatches matchId = some m ∧
      lookupA (endMatch storage st matchId winnerId).1.activeMatches matchId =
        some { m with status := .completed, roundTimer := false } := by
  cases hm : lookupA st.activeMatches matchId with
  | none => left; simp only [endMatch, hm]
  | some m =>
    cases storage with
    | throws =>
      right
      refine ⟨m, rfl, ?_⟩
      simp only [endMatch, hm]
      rw [updateSessionPlayer_activeMatches, updateSessionPlayer_activeMatches]
      exact lookupA_setA_self _ _ _
    | ok row wf lf =>
      cases row with
      | none =>
        right
        refine ⟨m, rfl, ?_⟩
        simp only [endMatch, hm]
        rw [updateSessionPlayer_activeMatches, updateSessionPlayer_activeMatches]
        exact lookupA_setA_self _ _ _
      | some r =>
        left
        exact endMatch_ok_deregisters st matchId winnerId r wf lf hnd

theorem endMatch_activeMatches_lookup (storage : Storage) (st : ServerState)
    (matchId winnerId : String) (m' : GameMatch)
    (hnd : (st.activeMatches.map Prod.fst).Nodup)
    (h' : lookupA (endMatch storage st matchId winnerId).1.activeMatches matchId =
      some m') :
    ∃ mM, lookupA st.activeMatches matchId = some mM ∧
      m' = { mM with status := .completed, roundTimer := false } := by
  rcases endMatch_registry_cases storage st matchId winnerId hnd with hc | ⟨mM, hmM, hl⟩
  · rw [hc] at h'
    cases h'
  · rw [hl] at h'
    exact ⟨mM, hmM, (Option.some.inj h').symm⟩

/-- C3: HP never goes negative — on each processed hit the target's stored hp
becomes `max 0 (previous − damage)`, the broadcast `spell-hit` carries exactly
that clamped value together with both players' (non-negative) hp, and whenever
the match is still registered afterwards its stored hp values are the clamped
one for the target and the unchanged non-negative one for the other side. -/
theorem handleSpellHit_hp_clamped (storage : Storage) (st : ServerState)
    (matchId spellId : String) (hitPlayerId : Side) (m : GameMatch) (spell : Spell)
    (hnd : (st.activeMatches.map Prod.fst).Nodup)
    (hm : lookupA st.activeMatches matchId = some m)
    (hsp : m.activeSpells.find? (fun s => s.id == spellId) = some spell)
    (h1 : 0 ≤ m.player1.hp) (h2 : 0 ≤ m.player2.hp) :
    let newHp := max 0 ((m.getPlayer hitPlayerId).hp - spell.damage)
    let hp1 := if hitPlayerId = Side.player1 then newHp else m.player1.hp
    let hp2 := if hitPlayerId = Side.player2 then newHp else m.player2.hp
    let msg := Msg.spellHit spellId hitPlayerId spell.damage newHp
      (m.getPlayer hitPlayerId).hp hp1 hp2
    0 ≤ newHp ∧ 0 ≤ hp1 ∧ 0 ≤ hp2 ∧
    Out.send m.player1.id msg ∈ (handleSpellHit storage st matchId spellId hitPlayerId).2 ∧
    Out.send m.player2.id msg ∈ (handleSpellHit storage st matchId spellId hitPlayerId).2 ∧
    (∀ m', lookupA (handleSpellHit storage st matchId spellId
        hitPlayerId).1.activeMatches matchId = some m' →
      (m'.getPlayer hitPlayerId).hp = newHp ∧ 0 ≤ m'.player1.hp ∧ 0 ≤ m'.player2.hp) := by
  intro newHp hp1 hp2 msg
  simp only [handleSpellHit, hm, hsp]
  cases hitPlayerId with
  | player1 =>
    cases howner : spell.owner <;>
    · simp only [GameMatch.getPlayer, GameMatch.setPlayer]
      refine ⟨le_max_left _ _, le_max_left _ _, h2, ?_, ?_, ?_⟩
      · split
        · exact List.mem_append_left _ (List.mem_cons_self _ _)
        · exact List.mem_cons_self _ _
      · split
        · exact List.mem_append_left _ (List.mem_cons_of_mem _ (List.mem_cons_self _ _))
        · exact List.mem_cons_of_mem _ (List.mem_cons_self _ _)
      · split
        · intro m' h'
          obtain ⟨mM, hmM, rfl⟩ :=
            endMatch_activeMatches_lookup storage _ _ _ _ (keys_setA_nodup hnd) h'
          simp only [lookupA_setA_self, Option.some.injEq] at hmM
          subst hmM
          exact ⟨rfl, le_max_left _ _, h2⟩
        · intro m' h'
          simp only [lookupA_setA_self, Option.some.injEq] at h'
          subst h'
          exact ⟨rfl, le_max_left _ _, h2⟩
  | player2 =>
    cases howner : spell.owner <;>
    · simp only [GameMatch.getPlayer, GameMatch.setPlayer]
      refine ⟨le_max_left _ _, h1, le_max_left _ _, ?_, ?_, ?_⟩
      · split
        · exact List.mem_append_left _ (List.mem_cons_self _ _)
        · exact List.mem_cons_self _ _
      · split
        · exact List.mem_append_left _ (List.mem_cons_of_mem _ (List.mem_cons_self _ _))
        · exact List.mem_cons_of_mem _ (List.mem_cons_self _ _)
      · split
        · intro m' h'
          obtain ⟨mM, hmM, rfl⟩ :=
            endMatch_activeMatches_lookup storage _ _ _ _ (keys_setA_nodup hnd) h'
          simp only [lookupA_setA_self, Option.some.injEq] at hmM
          subst hmM
          exact ⟨rfl, h1, le_max_left _ _⟩
        · intro m' h'
          simp only [lookupA_setA_self, Option.some.injEq] at h'
          subst h'
          exact ⟨rfl, h1, le_max_left _ _⟩


/-- C3 witness: the demo hit (damage 20 on hp 200) stores and reports hp 180 =
max 0 (200 - 20). -/
theorem handleSpellHit_hp_clamped_witness :
    (0 : Int) ≤ max 0 ((demoSpellMatch.getPlayer Side.player2).hp - demoSpellObj.damage) ∧
    (∀ m', lookupA (handleSpellHit Storage.throws demoSpell "m1" "sp1"
        Side.player2).1.activeMatches "m1" = some m' →
      (m'.getPlayer Side.player2).hp =
        max 0 ((demoSpellMatch.getPlayer Side.player2).hp - demoSpellObj.damage) ∧
      0 ≤ m'.player1.hp ∧ 0 ≤ m'.player2.hp) := by
  have h := handleSpellHit_hp_clamped Storage.throws demoSpell "m1" "sp1" Side.player2
    demoSpellMatch demoSpellObj (by decide) (by decide) (by decide) (by decide) (by decide)
  exact ⟨h.1, h.2.2.2.2.2⟩

theorem setPlayer_activeSpells (m : GameMatch) (s : Side) (p : MatchPlayer) :
    (m.setPlayer s p).activeSpells = m.activeSpells := by
  cases s <;> rfl

theorem find?_eraseP_nodup {l : List Spell} {x : String}
    (h : (l.map Spell.id).Nodup) :
    (l.eraseP (fun s => s.id == x)).find? (fun s => s.id == x) = none := by
  induction l with
  | nil => rfl
  | cons s t ih =>
    simp only [List.map_cons, List.nodup_cons] at h
    by_cases hs : s.id = x
    · rw [List.eraseP_cons_of_pos (by simp [hs])]
      rw [List.find?_eq_none]
      intro u hu
      simp only [beq_iff_eq]
      intro hux
      exact h.1 (by rw [hs, ← hux]; exact List.mem_map_of_mem Spell.id hu)
    · rw [List.eraseP_cons_of_neg (by simp [hs])]
      rw [List.find?_cons_of_neg _ (by simp [hs])]
      exact ih h.2

theorem handleSpellHit_noop_of_spell_absent (storage : Storage) (st : ServerState)
    (matchId spellId : String) (hitPlayerId : Side)
    (h : ∀ m, lookupA st.activeMatches matchId = some m →
      m.activeSpells.find? (fun s => s.id == spellId) = none) :
    handleSpellHit storage st matchId spellId hitPlayerId = (st, []) := by
  cases hm : lookupA st.activeMatches matchId with
  | none => simp only [handleSpellHit, hm]
  | some m => simp only [handleSpellHit, hm, h m hm]

/-- C2: `handleSpellHit` is idempotent per spell id — a report naming a spell id
that is missing from `activeSpells` (or a match id that is not registered) is a
no-op leaving the whole state unchanged, and a second report with the same
spell id after a processed first report is likewise a no-op: the first report
consumed the spell, so HP and all other state change only once. -/
theorem handleSpellHit_idempotent (storage storage2 : Storage) (st : ServerState)
    (matchId spellId : String) (hitPlayerId : Side)
    (hnd : (st.activeMatches.map Prod.fst).Nodup)
    (hids : ∀ m, lookupA st.activeMatches matchId = some m →
      (m.activeSpells.map Spell.id).Nodup) :
    (lookupA st.activeMatches matchId = none →
      handleSpellHit storage st matchId spellId hitPlayerId = (st, [])) ∧
    (∀ m, lookupA st.activeMatches matchId = some m →
      m.activeSpells.find? (fun s => s.id == spellId) = none →
      handleSpellHit storage st matchId spellId hitPlayerId = (st, [])) ∧
    (handleSpellHit storage2 (handleSpellHit storage st matchId spellId
        hitPlayerId).1 matchId spellId hitPlayerId =
      ((handleSpellHit storage st matchId spellId hitPlayerId).1, [])) := by
  refine ⟨?_, ?_, ?_⟩
  · intro h
    simp only [handleSpellHit, h]
  · intro m hm hf
    simp only [handleSpellHit, hm, hf]
  · apply handleSpellHit_noop_of_spell_absent
    intro m2 hm2
    cases hm : lookupA st.activeMatches matchId with
    | none =>
      simp only [handleSpellHit, hm] at hm2
      cases hm2
    | some m =>
      cases hf : m.activeSpells.find? (fun s => s.id == spellId) with
      | none =>
        simp only [handleSpellHit, hm, hf] at hm2
        obtain rfl := Option.some.inj hm2
        exact hf
      | some spell =>
        simp only [handleSpellHit, hm, hf] at hm2
        split at hm2
        · obtain ⟨mM, hmM, rfl⟩ :=
            endMatch_activeMatches_lookup storage _ _ _ _ (keys_setA_nodup hnd) hm2
          simp only [lookupA_setA_self, Option.some.injEq] at hmM
          subst hmM
          simp only [setPlayer_activeSpells]
          exact find?_eraseP_nodup (hids m hm)
        · simp only [lookupA_setA_self, Option.some.injEq] at hm2
          subst hm2
          simp only [setPlayer_activeSpells]
          exact find?_eraseP_nodup (hids m hm)

/-- C2 witness: on the demo state, a report for an unknown spell id is a no-op
and a repeated report of `"sp1"` after the first is a no-op. -/
theorem handleSpellHit_idempotent_witness :
    handleSpellHit Storage.throws demoSpell "m1" "nosuch" Side.player2 =
      (demoSpell, []) ∧
    handleSpellHit Storage.throws (handleSpellHit Storage.throws demoSpell "m1" "sp1"
        Side.player2).1 "m1" "sp1" Side.player2 =
      ((handleSpellHit Storage.throws demoSpell "m1" "sp1" Side.player2).1, []) := by
  have hmatch : lookupA demoSpell.activeMatches "m1" = some demoSpellMatch := by decide
  have hone := handleSpellHit_idempotent Storage.throws Storage.throws demoSpell "m1"
    "nosuch" Side.player2 (by decide)
    (fun m hm => by
      rw [hmatch] at hm
      obtain rfl := Option.some.inj hm
      decide)
  have htwo := handleSpellHit_idempotent Storage.throws Storage.throws demoSpell "m1"
    "sp1" Side.player2 (by decide)
    (fun m hm => by
      rw [hmatch] at hm
      obtain rfl := Option.some.inj hm
      decide)
  exact ⟨hone.2.1 demoSpellMatch hmatch (by decide), htwo.2.2⟩

theorem noQueueMatchOverlap_iff (st : ServerState) :
    noQueueMatchOverlap st = true ↔
    ∀ kv ∈ st.activeMatches, ∀ kq ∈ st.queues, ∀ e ∈ kq.2,
      e.studentId ≠ kv.2.player1.id ∧ e.studentId ≠ kv.2.player2.id := by
  simp [noQueueMatchOverlap, List.all_eq_true, Bool.and_eq_true, bne_iff_ne]

theorem mem_idsOf {l : List (String × List QueueEntry)} {kq : String × List QueueEntry}
    {e : QueueEntry} (hkq : kq ∈ l) (he : e ∈ kq.2) :
    e.studentId ∈ l.flatMap (fun kq => kq.2.map QueueEntry.studentId) := by
  rw [List.mem_flatMap]
  exact ⟨kq, hkq, List.mem_map_of_mem QueueEntry.studentId he⟩

theorem lookupA_decomp {α : Type} {l : List (String × α)} {k : String} {v : α}
    (h : lookupA l k = some v) :
    ∃ L1 L2, l = L1 ++ (k, v) :: L2 ∧ k ∉ L1.map Prod.fst ∧
      ∀ w, setA l k w = L1 ++ (k, w) :: L2 := by
  induction l with
  | nil => cases h
  | cons p t ih =>
    obtain ⟨k0, v0⟩ := p
    by_cases hk : k0 = k
    · subst hk
      rw [lookupA_cons, if_pos rfl] at h
      obtain rfl := Option.some.inj h
      exact ⟨[], t, rfl, by simp, fun w => by rw [setA_cons, if_pos rfl]; rfl⟩
    · rw [lookupA_cons, if_neg hk] at h
      obtain ⟨L1, L2, hl, hk1, hw⟩ := ih h
      refine ⟨(k0, v0) :: L1, L2, by rw [hl]; rfl, ?_, fun w => ?_⟩
      · simp only [List.map_cons, List.mem_cons]
        rintro (h1 | h1)
        · exact hk h1.symm
        · exact hk1 h1
      · rw [setA_cons, if_neg hk, hw w]
        rfl

theorem nodup_three_chunks {A B C : List String} (h : (A ++ (B ++ C)).Nodup) :
    B.Nodup ∧ (∀ a ∈ A, a ∉ B) ∧ (∀ b ∈ B, b ∉ C) := by
  simp only [List.nodup_append, List.disjoint_left, List.mem_append] at h
  refine ⟨h.2.1.1, ?_, ?_⟩
  · intro a ha hb
    exact h.2.2 ha (Or.inl hb)
  · intro b hb hc
    exact h.2.1.2.2 hb hc

theorem nodup_insert_middle {A B C : List String} {x : String}
    (h : (A ++ (B ++ C)).Nodup) (hx : x ∉ A ++ (B ++ C)) :
    (A ++ ((B ++ [x]) ++ C)).Nodup := by
  simp only [List.nodup_append, List.disjoint_left, List.mem_append, List.mem_singleton,
    List.nodup_singleton, List.not_mem_nil, or_false, not_or] at h hx ⊢
  obtain ⟨nA, ⟨nB, nC, dBC⟩, dA⟩ := h
  obtain ⟨hxA, hxB, hxC⟩ := hx
  refine ⟨nA, ⟨⟨nB, trivial, ?_⟩, nC, ?_⟩, ?_⟩
  · intro a ha
    intro hax
    exact hxB (hax ▸ ha)
  · rintro a (ha | ha)
    · exact dBC ha
    · intro hc
      exact hxC (ha ▸ hc)
  · intro a ha
    have := dA ha
    push_neg at this
    refine ⟨⟨this.1, ?_⟩, this.2⟩
    intro hax
    exact hxA (hax ▸ ha)

theorem tryMatch_preserves_noOverlap (mid : String) (st : ServerState) (sc : String)
    (hInv : noQueueMatchOverlap st = true)
    (hIds : (allQueuedIds st).Nodup) :
    noQueueMatchOverlap (tryMatch mid st sc).1 = true := by
  have hInvP := (noQueueMatchOverlap_iff st).mp hInv
  cases hq : lookupA st.queues sc with
  | none => simpa only [tryMatch, hq] using hInv
  | some queue =>
    cases queue with
    | nil => simpa only [tryMatch, hq] using hInv
    | cons e1 t =>
      cases t with
      | nil => simpa only [tryMatch, hq] using hInv
      | cons e2 rest =>
        obtain ⟨L1, L2, hl, hk1, hw⟩ := lookupA_decomp hq
        have hids2 : allQueuedIds st =
            L1.flatMap (fun kq => kq.2.map QueueEntry.studentId) ++
            ((e1.studentId :: e2.studentId :: rest.map QueueEntry.studentId) ++
             L2.flatMap (fun kq => kq.2.map QueueEntry.studentId)) := by
          rw [allQueuedIds, hl]
          simp
        rw [hids2] at hIds
        obtain ⟨nB, dAB, dBC⟩ := nodup_three_chunks hIds
        simp only [tryMatch, hq, createMatch]
        rw [noQueueMatchOverlap_iff]
        intro kv hkv kq hkq e he
        simp only [updateSessionPlayer_queues, updateSessionPlayer_activeMatches] at hkv hkq
        rw [hw rest] at hkq
        have hkqQ : kq ∈ L1 ∨ kq = (sc, rest) ∨ kq ∈ L2 := by
          rcases List.mem_append.mp hkq with h1 | h1
          · exact Or.inl h1
          · rcases List.mem_cons.mp h1 with h2 | h2
            · exact Or.inr (Or.inl h2)
            · exact Or.inr (Or.inr h2)
        rcases mem_setA hkv with hkvM | hkvNew
        · -- an old match: the old invariant applies since every remaining entry
          -- was already queued before the pairing
          have hkqOld : ∀ e', e' ∈ kq.2 → ∃ kq', kq' ∈ st.queues ∧ e' ∈ kq'.2 := by
            intro e' he'
            rcases hkqQ with h1 | h1 | h1
            · refine ⟨kq, ?_, he'⟩
              rw [hl]
              exact List.mem_append_left _ h1
            · refine ⟨(sc, e1 :: e2 :: rest), ?_, ?_⟩
              · rw [hl]
                exact List.mem_append_right _ (List.mem_cons_self _ _)
              · subst h1
                exact List.mem_cons_of_mem _ (List.mem_cons_of_mem _ he')
            · refine ⟨kq, ?_, he'⟩
              rw [hl]
              exact List.mem_append_right _ (List.mem_cons_of_mem _ h1)
          obtain ⟨kq', hkq', he'⟩ := hkqOld e he
          exact hInvP kv hkvM kq' hkq' e he'
        · -- the newly created match references exactly the two popped entries
          subst hkvNew
          have hgoal : e.studentId ≠ e1.studentId ∧ e.studentId ≠ e2.studentId := by
            rcases hkqQ with h1 | h1 | h1
            · have hA := mem_idsOf h1 he
              constructor
              · intro heq
                exact dAB _ hA (heq ▸ List.mem_cons_self _ _)
              · intro heq
                exact dAB _ hA (heq ▸ List.mem_cons_of_mem _ (List.mem_cons_self _ _))
            · subst h1
              have hrest : e.studentId ∈ rest.map QueueEntry.studentId :=
                List.mem_map_of_mem QueueEntry.studentId he
              obtain ⟨hB1, hB2⟩ := List.nodup_cons.mp nB
              have hB3 := (List.nodup_cons.mp hB2).1
              constructor
              · intro heq
                exact hB1 (List.mem_cons_of_mem _ (heq ▸ hrest))
              · intro heq
                exact hB3 (heq ▸ hrest)
            · have hC := mem_idsOf h1 he
              constructor
              · intro heq
                exact dBC _ (List.mem_cons_self _ _) (heq ▸ hC)
              · intro heq
                exact dBC _ (List.mem_cons_of_mem _ (List.mem_cons_self _ _)) (heq ▸ hC)
          exact hgoal

theorem enterQueue_ensure_queue (now : Int) (mid : String) (st : ServerState)
    (sc pid : String) (h : lookupA st.queues sc = none) :
    enterQueue now mid st sc pid =
      enterQueue now mid { st with queues := setA st.queues sc [] } sc pid := by
  simp only [enterQueue, h, lookupA_setA_self, Option.isNone_none, Option.isNone_some,
    if_true, Bool.false_eq_true, if_false]

theorem enterQueue_preserves_noOverlap_aux (now : Int) (mid : String) (st : ServerState)
    (sc pid : String) (q : List QueueEntry)
    (hq : lookupA st.queues sc = some q)
    (hInv : noQueueMatchOverlap st = true)
    (hNoMatch : ∀ kv ∈ st.activeMatches, kv.2.player1.id ≠ pid ∧ kv.2.player2.id ≠ pid)
    (hIds : (allQueuedIds st).Nodup)
    (hFresh : pid ∉ allQueuedIds st) :
    noQueueMatchOverlap (enterQueue now mid st sc pid).1 = true := by
  have hInvP := (noQueueMatchOverlap_iff st).mp hInv
  obtain ⟨L1, L2, hl, hk1, hw⟩ := lookupA_decomp hq
  simp only [enterQueue, hq, Option.isNone_some, Bool.false_eq_true, if_false,
    Option.getD_some]
  by_cases hfind : (q.find? (fun p => p.studentId == pid)).isSome
  · rw [if_pos hfind]
    exact hInv
  · rw [if_neg hfind]
    cases hsess : lookupA st.sessions sc with
    | none =>
      dsimp only
      exact hInv
    | some session =>
      dsimp only
      cases hpl : lookupA session.players pid with
      | none =>
        dsimp only
        exact hInv
      | some player =>
        dsimp only
        by_cases helim : (player.eliminated || decide (player.hp ≤ 0)) = true
        · rw [if_pos helim]
          exact hInv
        · rw [if_neg helim]
          -- the push stage: facts about st₃
          have hids2 : allQueuedIds st =
              L1.flatMap (fun kq => kq.2.map QueueEntry.studentId) ++
              (q.map QueueEntry.studentId ++
               L2.flatMap (fun kq => kq.2.map QueueEntry.studentId)) := by
            rw [allQueuedIds, hl]
            simp
          rw [hids2] at hIds hFresh
          set entry : QueueEntry :=
            { studentId := pid, sessionCode := sc, damage := player.damage,
              hp := player.hp, selectedCharacter := player.selectedCharacter,
              studentNickname := player.studentNickname, enteredAt := now } with hentry
          have hIds3 : ((setA st.queues sc (q ++ [entry])).flatMap
              (fun kq => kq.2.map QueueEntry.studentId)).Nodup := by
            rw [hw (q ++ [entry])]
            have := nodup_insert_middle hIds hFresh
            simpa using this
          have hInv3 : ∀ kv ∈ st.activeMatches, ∀ kq ∈ setA st.queues sc (q ++ [entry]),
              ∀ e ∈ kq.2, e.studentId ≠ kv.2.player1.id ∧ e.studentId ≠ kv.2.player2.id := by
            intro kv hkv kq hkq e he
            rw [hw (q ++ [entry])] at hkq
            have hkqQ : kq ∈ L1 ∨ kq = (sc, q ++ [entry]) ∨ kq ∈ L2 := by
              rcases List.mem_append.mp hkq with h1 | h1
              · exact Or.inl h1
              · rcases List.mem_cons.mp h1 with h2 | h2
                · exact Or.inr (Or.inl h2)
                · exact Or.inr (Or.inr h2)
            rcases hkqQ with h1 | h1 | h1
            · refine hInvP kv hkv kq ?_ e he
              rw [hl]
              exact List.mem_append_left _ h1
            · subst h1
              rcases List.mem_append.mp he with h2 | h2
              · refine hInvP kv hkv (sc, q) ?_ e h2
                rw [hl]
                exact List.mem_append_right _ (List.mem_cons_self _ _)
              · have hepid : e.studentId = pid := by
                  rcases List.mem_singleton.mp h2 with rfl
                  rfl
                rw [hepid]
                exact ⟨Ne.symm (hNoMatch kv hkv).1, Ne.symm (hNoMatch kv hkv).2⟩
            · refine hInvP kv hkv kq ?_ e he
              rw [hl]
              exact List.mem_append_right _ (List.mem_cons_of_mem _ h1)
          by_cases hlen : (q ++ [entry]).length ≥ 2
          · rw [if_pos hlen]
            apply tryMatch_preserves_noOverlap
            · rw [noQueueMatchOverlap_iff]
              intro kv hkv kq hkq e he
              simp only [updateSessionPlayer_queues, updateSessionPlayer_activeMatches]
                at hkv hkq
              exact hInv3 kv hkv kq hkq e he
            · show (allQueuedIds _).Nodup
              rw [allQueuedIds]
              simp only [updateSessionPlayer_queues]
              exact hIds3
          · rw [if_neg hlen]
            rw [noQueueMatchOverlap_iff]
            intro kv hkv kq hkq e he
            simp only [updateSessionPlayer_queues, updateSessionPlayer_activeMatches]
              at hkv hkq
            exact hInv3 kv hkv kq hkq e he

/-- C1 counterexample: starting from `demo0`, after `A` and `B` enter the queue
they are paired into live match `"m1"` and the invariant holds (`demo2`); but a
third `enterQueue` call by `A` — still referenced by the live match — succeeds,
leaving `A` simultaneously at queue position 1 and as player1 of the registered
match: `enterQueue` does not preserve the invariant. -/
theorem queue_match_overlap_reachable :
    noQueueMatchOverlap demo2 = true ∧
    getQueuePosition demo3 "S" "A" = some 1 ∧
    (getMatch demo3 "m1").map (fun m => m.player1.id) = some "A" ∧
    noQueueMatchOverlap demo3 = false := by
  decide

/-- C1 amended: the queue/match exclusion is not an invariant of the system —
`enterQueue` admits a player already referenced by a live match (see the
counterexample).  What holds: `enterQueue` (including the embedded
`tryMatch`/`createMatch` pairing) preserves the no-overlap property whenever
the entering player is referenced by no registered match and sits in no queue,
and the queued ids are duplicate-free. -/
theorem enterQueue_preserves_noOverlap (now : Int) (mid : String) (st : ServerState)
    (sc pid : String)
    (hInv : noQueueMatchOverlap st = true)
    (hNoMatch : ∀ kv ∈ st.activeMatches, kv.2.player1.id ≠ pid ∧ kv.2.player2.id ≠ pid)
    (hIds : (allQueuedIds st).Nodup)
    (hFresh : pid ∉ allQueuedIds st) :
    noQueueMatchOverlap (enterQueue now mid st sc pid).1 = true := by
  cases hq : lookupA st.queues sc with
  | some q =>
    exact enterQueue_preserves_noOverlap_aux now mid st sc pid q hq hInv hNoMatch
      hIds hFresh
  | none =>
    rw [enterQueue_ensure_queue now mid st sc pid hq]
    have happ := setA_eq_append ([] : List QueueEntry) (lookupA_eq_none_iff.mp hq)
    apply enterQueue_preserves_noOverlap_aux now mid _ sc pid []
      (lookupA_setA_self _ _ _)
    · rw [noQueueMatchOverlap_iff]
      intro kv hkv kq hkq e he
      dsimp only at hkv hkq
      rw [happ] at hkq
      rcases List.mem_append.mp hkq with h1 | h1
      · exact (noQueueMatchOverlap_iff st).mp hInv kv hkv kq h1 e he
      · obtain rfl := List.mem_singleton.mp h1
        cases he
    · intro kv hkv
      exact hNoMatch kv hkv
    · show (allQueuedIds _).Nodup
      rw [allQueuedIds]
      dsimp only
      rw [happ]
      simpa [allQueuedIds] using hIds
    · show pid ∉ allQueuedIds _
      rw [allQueuedIds]
      dsimp only
      rw [happ]
      simpa [allQueuedIds] using hFresh

/-- C1 witness: `B` entering `demo1` (where `A` waits and no match references
either) triggers the pairing, and the no-overlap property holds afterwards. -/
theorem enterQueue_preserves_noOverlap_witness :
    noQueueMatchOverlap (enterQueue 1 "m1" demo1 "S" "B").1 = true :=
  enterQueue_preserves_noOverlap 1 "m1" demo1 "S" "B" (by decide) (by decide)
    (by decide) (by decide)
